import Mathlib

/-!
Verification of the frontdesk escalation / knowledge-base store.

The definitions below are a shallow embedding of
`apps/frontend/lib/store.ts` together with the two API route handlers
`apps/frontend/app/api/help-requests/route.ts` (POST) and
`apps/frontend/app/api/help-requests/[id]/route.ts` (PATCH).

Strings are modelled by Lean `String` (a packed `List Char`), and the
JavaScript string primitives used by the source (`trim`, `toLowerCase`,
`includes`) are re-implemented structurally on the character list so that
all definitions evaluate by kernel reduction.  The Firestore collections
are modelled as association lists in document order; `collection.doc(id)`
lookup and `where(field, "==", v).limit(1)` become `List.find?`, and a
document update becomes an in-place replacement of the first match.
Timestamps (`new Date().toISOString()`) and generated ids are modelled as
explicit string parameters.
-/

namespace FrontDesk

/-- Character-level lower-casing; models JS `String.prototype.toLowerCase`
for the ASCII data handled by the store. -/
def jsToLower (s : String) : String := ⟨s.data.map Char.toLower⟩

/-- Remove leading and trailing whitespace; models JS `String.prototype.trim`. -/
def jsTrim (s : String) : String :=
  ⟨((s.data.dropWhile Char.isWhitespace).reverse.dropWhile Char.isWhitespace).reverse⟩

/-- `isPrefixList sub l` is `true` when `sub` is a prefix of `l`. -/
def isPrefixList : List Char → List Char → Bool
  | [], _ => true
  | _ :: _, [] => false
  | a :: as, b :: bs => a == b && isPrefixList as bs

/-- `isInfixList sub l` is `true` when `sub` occurs contiguously inside `l`. -/
def isInfixList (sub : List Char) : List Char → Bool
  | [] => isPrefixList sub []
  | b :: bs => isPrefixList sub (b :: bs) || isInfixList sub bs

/-- Models JS `a.includes(b)` (contiguous substring test). -/
def jsIncludes (a b : String) : Bool := isInfixList b.data a.data

/-- Models the source pattern `value?.trim()` followed by a JS truthiness
test: the result is `some` of the trimmed string exactly when the input is
present and non-empty after trimming. -/
def optTruthy (o : Option String) : Option String :=
  match o with
  | none => none
  | some s => if jsTrim s = "" then none else some (jsTrim s)

/-- Replace the first element satisfying `p` by its image under `f`;
models a Firestore `docRef.update` against the first query match. -/
def updateFirst {α : Type} (p : α → Bool) (f : α → α) : List α → List α
  | [] => []
  | r :: rs => if p r then f r :: rs else r :: updateFirst p f rs

/-- Help-request lifecycle states (`lib/types.ts`). -/
inductive HelpRequestStatus where
  | pending
  | resolved
  | timeout
deriving DecidableEq, Repr

/-- A help request as stored and as returned by `sanitizeHelpRequest`
(`lib/store.ts`).  Optional JS fields become `Option`. -/
structure HelpRequest where
  id : String
  question : String
  customerName : Option String := none
  customerPhone : Option String := none
  channel : Option String := none
  status : HelpRequestStatus
  createdAt : String
  updatedAt : String
  answer : Option String := none
  supervisorName : Option String := none
  supervisorNotes : Option String := none
  resolvedAt : Option String := none
  respondedAt : Option String := none
  timedOutAt : Option String := none
deriving DecidableEq, Repr

/-- Input of `createHelpRequest` (`lib/store.ts`). -/
structure CreateHelpRequestInput where
  question : String
  customerName : Option String := none
  customerPhone : Option String := none
  channel : Option String := none
deriving DecidableEq, Repr

/-- Input of `updateHelpRequest` (`lib/store.ts`). -/
structure ResolveHelpRequestInput where
  action : Option String := none
  answer : Option String := none
  supervisorName : Option String := none
  supervisorNotes : Option String := none
  shouldAddToKnowledgeBase : Option Bool := none
deriving DecidableEq, Repr

/-- `getHelpRequest` (`lib/store.ts`): Firestore document lookup by id. -/
def getHelpRequest (store : List HelpRequest) (id : String) : Option HelpRequest :=
  store.find? (fun r => r.id == id)

/-- `createHelpRequest` (`lib/store.ts` lines 209-242): builds the new
pending record.  The generated document id and the current timestamp are
explicit parameters.  Note the source performs no validation of
`question`; it only trims it. -/
def createHelpRequest (input : CreateHelpRequestInput) (newId now : String) : HelpRequest :=
  { id := newId
    question := jsTrim input.question
    customerName := optTruthy input.customerName
    customerPhone := optTruthy input.customerPhone
    channel := optTruthy input.channel
    status := .pending
    createdAt := now
    updatedAt := now }

/-- Result of `updateHelpRequest`: the source throws (`Error`) or returns
the updated record after writing it. -/
inductive UpdateResult where
  | err (msg : String)
  | ok (store : List HelpRequest) (updated : HelpRequest)
deriving DecidableEq, Repr

/-- The record written and returned by the timeout branch of
`updateHelpRequest` (lines 267-280): only `status`, `updatedAt` and
`timedOutAt` are touched; every other field (including `resolvedAt`)
is left as stored. -/
def timedOutHelpRequest (now : String) (r : HelpRequest) : HelpRequest :=
  { r with status := .timeout, updatedAt := now, timedOutAt := some now }

/-- The record written and returned by the resolve branch of
`updateHelpRequest` (lines 290-334): sets the resolved fields, deletes
`timedOutAt`, and sets or deletes the supervisor fields according to the
truthiness of the trimmed inputs. -/
def resolvedHelpRequest (input : ResolveHelpRequestInput) (now answer : String)
    (r : HelpRequest) : HelpRequest :=
  { r with
    status := .resolved
    answer := some answer
    updatedAt := now
    resolvedAt := some now
    respondedAt := some now
    timedOutAt := none
    supervisorName := optTruthy input.supervisorName
    supervisorNotes := optTruthy input.supervisorNotes }

/-- `updateHelpRequest` (`lib/store.ts` lines 252-343).  The source checks
only that the document exists; it never inspects the current `status`.
`input.action === "timeout"` selects the timeout branch, otherwise the
trimmed answer must be truthy. -/
def updateHelpRequest (store : List HelpRequest) (id : String)
    (input : ResolveHelpRequestInput) (now : String) : UpdateResult :=
  match store.find? (fun r => r.id == id) with
  | none => .err "Help request not found"
  | some existing =>
    if input.action = some "timeout" then
      .ok (updateFirst (fun r => r.id == id) (timedOutHelpRequest now) store)
        (timedOutHelpRequest now existing)
    else
      match optTruthy input.answer with
      | none => .err "answer is required when resolving"
      | some answer =>
        .ok (updateFirst (fun r => r.id == id) (resolvedHelpRequest input now answer) store)
          (resolvedHelpRequest input now answer existing)

/-- A knowledge-base entry as returned by `sanitizeKnowledgeEntry`
(`lib/store.ts`). -/
structure KnowledgeEntry where
  id : String
  question : String
  answer : String
  tags : Option (List String) := none
  source : String
  createdAt : String
  updatedAt : String
deriving DecidableEq, Repr

/-- A stored knowledge document: the entry plus the `questionLower`
dedup key (`KnowledgeRecord` in `lib/store.ts`). -/
structure KnowledgeRecord extends KnowledgeEntry where
  questionLower : String
deriving DecidableEq, Repr

/-- Input of `upsertKnowledgeEntry` (`lib/store.ts`). -/
structure UpsertKnowledgeEntryInput where
  question : String
  answer : String
  tags : Option (List String) := none
  source : Option String := none
deriving DecidableEq, Repr

/-- `input.tags?.map((tag) => tag.trim()).filter(Boolean)` from
`upsertKnowledgeEntry`. -/
def cleanTags (tags : Option (List String)) : Option (List String) :=
  match tags with
  | none => none
  | some ts => some ((ts.map jsTrim).filter (fun t => !(jsTrim t == "")))

/-- The merge branch of `upsertKnowledgeEntry` (lines 410-431): replaces
`answer` and `updatedAt`; writes the cleaned tags when non-empty and
otherwise DELETES the stored tags (`FieldValue.delete()`); replaces
`source` only when the input supplies a truthy one.  `question` and
`questionLower` are untouched. -/
def mergeKnowledgeRecord (input : UpsertKnowledgeEntryInput) (now : String)
    (r : KnowledgeRecord) : KnowledgeRecord :=
  { r with
    answer := jsTrim input.answer
    updatedAt := now
    tags := match cleanTags input.tags with
      | some ts => if ts = [] then none else some ts
      | none => none
    source := match input.source with
      | some s => if s = "" then r.source else s
      | none => r.source }

/-- The create branch of `upsertKnowledgeEntry` (lines 433-448): fresh id,
`createdAt = updatedAt = now`, `source` defaulting (nullish coalescing)
to `"supervisor"`, tags only when non-empty after cleaning. -/
def newKnowledgeRecord (input : UpsertKnowledgeEntryInput) (newId now : String) :
    KnowledgeRecord :=
  { id := newId
    question := jsTrim input.question
    answer := jsTrim input.answer
    tags := match cleanTags input.tags with
      | some ts => if ts = [] then none else some ts
      | none => none
    source := input.source.getD "supervisor"
    createdAt := now
    updatedAt := now
    questionLower := jsToLower (jsTrim input.question) }

/-- `upsertKnowledgeEntry` (`lib/store.ts` lines 393-451): looks up the
first document whose `questionLower` equals the lower-cased trimmed
question and merges in place, otherwise appends a new document. -/
def upsertKnowledgeEntry (store : List KnowledgeRecord)
    (input : UpsertKnowledgeEntryInput) (newId now : String) :
    List KnowledgeRecord × KnowledgeEntry :=
  match store.find? (fun r => r.questionLower == jsToLower (jsTrim input.question)) with
  | some doc =>
    (updateFirst (fun r => r.questionLower == jsToLower (jsTrim input.question))
      (mergeKnowledgeRecord input now) store,
     (mergeKnowledgeRecord input now doc).toKnowledgeEntry)
  | none =>
    (store ++ [newKnowledgeRecord input newId now],
     (newKnowledgeRecord input newId now).toKnowledgeEntry)

/-- `addAnswerToKnowledgeBase` (`lib/store.ts` lines 453-464): the learning
path used by the resolve route; it always passes `source = "supervisor"`. -/
def addAnswerToKnowledgeBase (store : List KnowledgeRecord)
    (question answer : String) (tags : Option (List String)) (newId now : String) :
    List KnowledgeRecord × KnowledgeEntry :=
  upsertKnowledgeEntry store
    { question := question, answer := answer, tags := tags, source := some "supervisor" }
    newId now

/-- The per-entry score computed by `searchKnowledgeEntries`
(lines 370-377): plain substring containment against the lower-cased
question (+2), answer (+1) and any tag (+1). -/
def knowledgeScore (e : KnowledgeEntry) (trimmed : String) : Nat :=
  (if jsIncludes (jsToLower e.question) trimmed then 2 else 0) +
  (if jsIncludes (jsToLower e.answer) trimmed then 1 else 0) +
  (if (match e.tags with
       | some ts => ts.any (fun tag => jsIncludes (jsToLower tag) trimmed)
       | none => false) then 1 else 0)

/-- Descending comparison on scored entries, as induced by the source's
comparator `(a, b) => b.score - a.score`. -/
def scoreGE (a b : KnowledgeEntry × Nat) : Prop := b.2 ≤ a.2

instance : DecidableRel scoreGE := fun a b => Nat.decLe b.2 a.2

instance : IsTotal (KnowledgeEntry × Nat) scoreGE := ⟨fun a b => Nat.le_total b.2 a.2⟩

instance : IsTrans (KnowledgeEntry × Nat) scoreGE :=
  ⟨fun _ _ _ hab hbc => le_trans hbc hab⟩

/-- `searchKnowledgeEntries` (`lib/store.ts` lines 355-384): empty trimmed
query short-circuits to `[]`; otherwise score every entry, keep the
strictly positive ones, sort descending by score (a stable sort, as JS
`Array.prototype.sort`), truncate to `limit` (default 5) and drop the
scores. -/
def searchKnowledgeEntries (store : List KnowledgeRecord) (query : String)
    (limit : Nat := 5) : List KnowledgeEntry :=
  if jsToLower (jsTrim query) = "" then []
  else
    ((((store.map (fun r => r.toKnowledgeEntry)).map
        (fun e => (e, knowledgeScore e (jsToLower (jsTrim query))))).filter
          (fun p => 0 < p.2)).insertionSort scoreGE).take limit |>.map (fun p => p.1)

/-- Outcome of the PATCH route handler
(`app/api/help-requests/[id]/route.ts`). -/
inductive PatchOutcome where
  | notFound
  | badRequest (msg : String)
  | okJson (r : HelpRequest)
  | serverError
deriving DecidableEq, Repr

/-- JSON body of the PATCH route. -/
structure PatchBody where
  action : Option String := none
  answer : Option String := none
  supervisorName : Option String := none
  supervisorNotes : Option String := none
  shouldAddToKnowledgeBase : Option Bool := none
  tags : Option (List String) := none
deriving DecidableEq, Repr

/-- Both Firestore collections owned by the frontend. -/
structure ServerState where
  helpRequests : List HelpRequest
  knowledge : List KnowledgeRecord
deriving DecidableEq, Repr

/-- The PATCH handler of `app/api/help-requests/[id]/route.ts`
(lines 23-80).  `knowledgeWriteFails` models the knowledge-base write
(`addAnswerToKnowledgeBase`) throwing, e.g. the persistence layer being
unreachable for that write; the handler's try/catch then answers 500 —
note the help-request update has already been committed at that point. -/
def patchHelpRequest (st : ServerState) (id : String) (body : PatchBody)
    (now newKnowledgeId : String) (knowledgeWriteFails : Bool) :
    ServerState × PatchOutcome :=
  if id = "" then (st, .badRequest "Missing id")
  else
    match getHelpRequest st.helpRequests id with
    | none => (st, .notFound)
    | some _ =>
      if body.action = some "timeout" then
        match updateHelpRequest st.helpRequests id { action := some "timeout" } now with
        | .ok hs updated => ({ st with helpRequests := hs }, .okJson updated)
        | .err _ => (st, .serverError)
      else
        match body.answer with
        | none => (st, .badRequest "answer is required when resolving")
        | some a =>
          if a = "" then (st, .badRequest "answer is required when resolving")
          else
            match updateHelpRequest st.helpRequests id
                { answer := some a
                  supervisorName := body.supervisorName
                  supervisorNotes := body.supervisorNotes } now with
            | .err _ => (st, .serverError)
            | .ok hs updated =>
              if (body.shouldAddToKnowledgeBase.getD true)
                  && (match updated.answer with
                      | some ans => !(ans == "")
                      | none => false) then
                if knowledgeWriteFails then
                  ({ st with helpRequests := hs }, .serverError)
                else
                  ({ helpRequests := hs
                     knowledge := (addAnswerToKnowledgeBase st.knowledge updated.question
                       (updated.answer.getD "")
                       (match body.tags with
                        | some ts => if ts = [] then none else some ts
                        | none => none)
                       newKnowledgeId now).1 }, .okJson updated)
              else ({ st with helpRequests := hs }, .okJson updated)

/-- Outcome of the POST route handler (`app/api/help-requests/route.ts`). -/
inductive PostOutcome where
  | badRequest
  | created (r : HelpRequest)
deriving DecidableEq, Repr

/-- The POST handler of `app/api/help-requests/route.ts` (lines 32-58):
rejects only a missing or falsy (empty-string) `question`; any other
string — including whitespace-only — is passed to `createHelpRequest`
and stored. -/
def postHelpRequest (store : List HelpRequest)
    (payload : Option CreateHelpRequestInput) (newId now : String) :
    List HelpRequest × PostOutcome :=
  match payload with
  | none => (store, .badRequest)
  | some p =>
    if p.question = "" then (store, .badRequest)
    else
      (store ++ [createHelpRequest p newId now],
       .created (createHelpRequest p newId now))

/-- Follows the spec's words (glossary): the "trimmed, whitespace-collapsed,
lower-cased form of a question used as a uniqueness key".  Defined only to
compare the spec's normalization with the code's `jsToLower (jsTrim q)` key. -/
def specNormalizedQuestion (q : String) : String :=
  jsToLower
    ⟨List.intercalate [' ']
      (((jsTrim q).data.splitOnP Char.isWhitespace).filter (fun w => !w.isEmpty))⟩

/-- A word character in the sense of the regex class used by the spec's
tokenizer (letters, digits, underscore). -/
def isWordChar (c : Char) : Bool := c.isAlphanum || c == '_'

/-- Follows the spec's words (§4.3): lower-cased word tokens, split on
non-word characters. -/
def specTokenize (s : String) : List String :=
  ((((jsToLower s).data.splitOnP (fun c => !isWordChar c)).filter
    (fun w => !w.isEmpty)).map (fun w => (⟨w⟩ : String)))

/-- Follows the spec's words (§4.3), scaled by 2 to stay in `ℕ`: twice the
spec's score, i.e. `4` for the substring-containment bonus, `2` per exact
token match and `1` per token prefix match. -/
def specScoreDoubled (e : KnowledgeEntry) (query : String) : Nat :=
  let q := jsToLower query
  let qTokens := specTokenize query
  let cand := specTokenize e.question ++ specTokenize e.answer ++
    ((e.tags.getD []).map specTokenize).flatten
  (if jsIncludes (jsToLower e.question) q then 4 else 0) +
  2 * (qTokens.countP (fun t => cand.contains t)) +
  (qTokens.countP (fun t => cand.any (fun c => isPrefixList t.data c.data)))

/-- A pending sample request used by concrete witnesses. -/
def hrSample : HelpRequest :=
  { id := "h1"
    question := "Do you do keratin?"
    customerPhone := some "+15550001111"
    status := .pending
    createdAt := "t0"
    updatedAt := "t0"
    supervisorName := some "Alice" }

/-- A first resolve input used by concrete witnesses. -/
def resolveInputA : ResolveHelpRequestInput := { answer := some "Yes, from $120" }

/-- A second, different resolve input used by concrete witnesses. -/
def resolveInputB : ResolveHelpRequestInput := { answer := some "No, we stopped" }

/-- The record produced by resolving `hrSample` with `resolveInputA` at
time `t1`. -/
def hrResolvedA : HelpRequest :=
  { hrSample with
    status := .resolved
    answer := some "Yes, from $120"
    updatedAt := "t1"
    resolvedAt := some "t1"
    respondedAt := some "t1"
    supervisorName := none }

/-- The record produced by resolving with `resolveInputB` at time `t2`. -/
def hrResolvedB : HelpRequest :=
  { hrSample with
    status := .resolved
    answer := some "No, we stopped"
    updatedAt := "t2"
    resolvedAt := some "t2"
    respondedAt := some "t2"
    supervisorName := none }

/-- The record produced by timing out `hrResolvedA` at time `t2`:
status is rewritten and `resolvedAt` survives next to `timedOutAt`. -/
def hrTimedOutAfterResolve : HelpRequest :=
  { hrResolvedA with status := .timeout, updatedAt := "t2", timedOutAt := some "t2" }

/-- A sample knowledge entry mirroring the `hours` seed entry. -/
def kbHours : KnowledgeEntry :=
  { id := "hours"
    question := "What are your business hours?"
    answer := "Open Monday through Friday from 9am to 7pm."
    tags := some ["schedule", "hours"]
    source := "seed"
    createdAt := "t0"
    updatedAt := "t0" }

/-- The stored document for `kbHours`. -/
def kbHoursRecord : KnowledgeRecord :=
  { kbHours with questionLower := jsToLower (jsTrim kbHours.question) }

/-! ## General lemmas about the store primitives -/

theorem length_updateFirst {α : Type} (p : α → Bool) (f : α → α) (l : List α) :
    (updateFirst p f l).length = l.length := by
  induction l with
  | nil => rfl
  | cons a l ih =>
    simp only [updateFirst]
    split <;> simp [ih]

theorem find?_updateFirst {α : Type} {p : α → Bool} {f : α → α} {l : List α} {r : α}
    (h : l.find? p = some r) (hf : p (f r) = true) :
    (updateFirst p f l).find? p = some (f r) := by
  induction l with
  | nil => simp at h
  | cons a l ih =>
    by_cases hpa : p a = true
    · rw [List.find?_cons_of_pos _ hpa] at h
      obtain rfl : a = r := by simpa using h
      simp only [updateFirst, if_pos hpa]
      exact List.find?_cons_of_pos _ hf
    · rw [List.find?_cons_of_neg _ hpa] at h
      simp only [updateFirst, if_neg hpa]
      rw [List.find?_cons_of_neg _ hpa]
      exact ih h

theorem countP_updateFirst {α : Type} (p q : α → Bool) (f : α → α) (l : List α)
    (hf : ∀ a, q (f a) = q a) :
    (updateFirst p f l).countP q = l.countP q := by
  induction l with
  | nil => rfl
  | cons a l ih =>
    simp only [updateFirst]
    split
    · simp [List.countP_cons, hf]
    · simp [List.countP_cons, ih]

theorem mem_updateFirst_of_countP_le_one {α : Type} {p : α → Bool} {f : α → α} {l : List α}
    (hcount : l.countP p ≤ 1) :
    ∀ x ∈ updateFirst p f l, p x = true → ∃ r, r ∈ l ∧ p r = true ∧ x = f r := by
  induction l with
  | nil => intro x hx; simp [updateFirst] at hx
  | cons a l ih =>
    intro x hx hpx
    by_cases hpa : p a = true
    · have h0 : l.countP p = 0 := by
        rw [List.countP_cons, if_pos hpa] at hcount; omega
      simp only [updateFirst, if_pos hpa] at hx
      rcases List.mem_cons.mp hx with rfl | hmem
      · exact ⟨a, List.mem_cons_self a l, hpa, rfl⟩
      · exact absurd hpx (by simpa using List.countP_eq_zero.mp h0 x hmem)
    · have hcount' : l.countP p ≤ 1 := by
        rw [List.countP_cons, if_neg hpa] at hcount; omega
      simp only [updateFirst, if_neg hpa] at hx
      rcases List.mem_cons.mp hx with rfl | hmem
      · exact absurd hpx hpa
      · obtain ⟨r, hrmem, hpr, hx⟩ := ih hcount' x hmem hpx
        exact ⟨r, List.mem_cons_of_mem a hrmem, hpr, hx⟩

theorem find?_append_of_none {α : Type} {p : α → Bool} {l₁ l₂ : List α}
    (h : l₁.find? p = none) : (l₁ ++ l₂).find? p = l₂.find? p := by
  rw [List.find?_append, h, Option.none_or]

/-! ## C1 — resolve on an already-terminal request -/

/-- **C1** (counterexample): resolving the same request twice is NOT
rejected; the second call answers `ok` and rewrites the stored record
(answer, `updatedAt`, `resolvedAt`), so it is not left as the first
terminal transition left it. -/
theorem resolve_twice_not_rejected :
    updateHelpRequest [hrSample] "h1" resolveInputA "t1" = .ok [hrResolvedA] hrResolvedA
    ∧ updateHelpRequest [hrResolvedA] "h1" resolveInputB "t2" = .ok [hrResolvedB] hrResolvedB
    ∧ hrResolvedB ≠ hrResolvedA := by
  decide

/-- **C1** (amended): `updateHelpRequest` never inspects the current
status: a resolve call on any existing record — terminal or not — with a
truthy trimmed answer succeeds, overwriting `answer`, `updatedAt` and
`resolvedAt`; only an unknown id is rejected. -/
theorem resolve_ignores_terminal_status
    (store : List HelpRequest) (id now : String) (input : ResolveHelpRequestInput)
    (r : HelpRequest) (a : String)
    (hfind : store.find? (fun x => x.id == id) = some r)
    (haction : input.action ≠ some "timeout")
    (hanswer : optTruthy input.answer = some a) :
    ∃ st ret, updateHelpRequest store id input now = .ok st ret
      ∧ ret.status = .resolved
      ∧ ret.answer = some a
      ∧ ret.updatedAt = now
      ∧ ret.resolvedAt = some now
      ∧ getHelpRequest st id = some ret := by
  refine ⟨updateFirst (fun x => x.id == id) (resolvedHelpRequest input now a) store,
    resolvedHelpRequest input now a r, ?_, rfl, rfl, rfl, rfl, ?_⟩
  · simp only [updateHelpRequest, hfind, if_neg haction, hanswer]
  · have hpr : (fun x : HelpRequest => x.id == id) (resolvedHelpRequest input now a r) = true := by
      simpa [resolvedHelpRequest] using List.find?_some hfind
    exact find?_updateFirst hfind hpr

/-- Witness for `resolve_ignores_terminal_status` at a concrete
already-resolved record. -/
theorem resolve_ignores_terminal_status_witness :
    ([hrResolvedA].find? (fun x => x.id == "h1") = some hrResolvedA
      ∧ resolveInputB.action ≠ some "timeout"
      ∧ optTruthy resolveInputB.answer = some "No, we stopped")
    ∧ (∃ st ret, updateHelpRequest [hrResolvedA] "h1" resolveInputB "t2" = .ok st ret
        ∧ ret.status = .resolved
        ∧ ret.answer = some "No, we stopped"
        ∧ ret.updatedAt = "t2"
        ∧ ret.resolvedAt = some "t2"
        ∧ getHelpRequest st "h1" = some ret) :=
  ⟨⟨by decide, by decide, by decide⟩,
   resolve_ignores_terminal_status [hrResolvedA] "h1" "t2" resolveInputB hrResolvedA
     "No, we stopped" (by decide) (by decide) (by decide)⟩

/-! ## C2 — terminal-state invariant and timeout-vs-resolve race -/

/-- **C2** (counterexample): a timeout on an already-resolved record is
not a no-op: it answers `ok`, rewrites the status to `timeout`, and the
stored record ends with BOTH `resolvedAt` and `timedOutAt` set — the
mutual-exclusion invariant and the no-resurrection rule both fail, and a
timeout racing a prior resolve does overwrite the resolve. -/
theorem timeout_after_resolve_overwrites :
    updateHelpRequest [hrResolvedA] "h1" { action := some "timeout" } "t2" =
      .ok [hrTimedOutAfterResolve] hrTimedOutAfterResolve
    ∧ hrTimedOutAfterResolve.resolvedAt = some "t1"
    ∧ hrTimedOutAfterResolve.timedOutAt = some "t2"
    ∧ hrTimedOutAfterResolve.status ≠ .resolved
    ∧ hrTimedOutAfterResolve ≠ hrResolvedA := by
  decide

/-- **C2** (amended): a freshly created request is `pending` with both
`resolvedAt` and `timedOutAt` absent; but a timeout call on ANY existing
record — whatever its status — succeeds, rewriting the status to
`timeout`, stamping `timedOutAt = updatedAt = now`, and leaving a
previously set `resolvedAt` in place (so after timeout-after-resolve both
terminal timestamps are set and the resolve is overwritten). -/
theorem timeout_overwrites_any_status
    (store : List HelpRequest) (id now : String) (r : HelpRequest)
    (hfind : store.find? (fun x => x.id == id) = some r) :
    (∃ st ret, updateHelpRequest store id { action := some "timeout" } now = .ok st ret
      ∧ ret.status = .timeout
      ∧ ret.timedOutAt = some now
      ∧ ret.updatedAt = now
      ∧ ret.resolvedAt = r.resolvedAt
      ∧ getHelpRequest st id = some ret)
    ∧ ∀ (input : CreateHelpRequestInput) (newId t : String),
        (createHelpRequest input newId t).status = .pending
        ∧ (createHelpRequest input newId t).resolvedAt = none
        ∧ (createHelpRequest input newId t).timedOutAt = none := by
  constructor
  · refine ⟨updateFirst (fun x => x.id == id) (timedOutHelpRequest now) store,
      timedOutHelpRequest now r, ?_, rfl, rfl, rfl, rfl, ?_⟩
    · simp [updateHelpRequest, hfind]
    · have hpr : (fun x : HelpRequest => x.id == id) (timedOutHelpRequest now r) = true := by
        simpa [timedOutHelpRequest] using List.find?_some hfind
      exact find?_updateFirst hfind hpr
  · intro input newId t
    exact ⟨rfl, rfl, rfl⟩

/-- Witness for `timeout_overwrites_any_status` at a concrete resolved
record. -/
theorem timeout_overwrites_any_status_witness :
    ([hrResolvedA].find? (fun x => x.id == "h1") = some hrResolvedA)
    ∧ ((∃ st ret, updateHelpRequest [hrResolvedA] "h1" { action := some "timeout" } "t2" = .ok st ret
        ∧ ret.status = .timeout
        ∧ ret.timedOutAt = some "t2"
        ∧ ret.updatedAt = "t2"
        ∧ ret.resolvedAt = hrResolvedA.resolvedAt
        ∧ getHelpRequest st "h1" = some ret)
      ∧ ∀ (input : CreateHelpRequestInput) (newId t : String),
          (createHelpRequest input newId t).status = .pending
          ∧ (createHelpRequest input newId t).resolvedAt = none
          ∧ (createHelpRequest input newId t).timedOutAt = none) :=
  ⟨by decide, timeout_overwrites_any_status [hrResolvedA] "h1" "t2" hrResolvedA (by decide)⟩

/-! ## C3 — atomicity of resolve + knowledge write -/

/-- **C3** (counterexample): with the knowledge write failing, the PATCH
handler answers a 500 failure — yet the help request has visibly moved to
`resolved` in the store; the two writes are not atomic. -/
theorem patch_knowledge_failure_counterexample :
    patchHelpRequest { helpRequests := [hrSample], knowledge := [] } "h1"
        { answer := some "Yes, from $120" } "t1" "k1" true =
      ({ helpRequests := [hrResolvedA], knowledge := [] }, .serverError)
    ∧ hrResolvedA.status = .resolved
    ∧ hrResolvedA ≠ hrSample := by
  decide

/-- **C3** (amended): the PATCH handler writes the `resolved` transition
first and only then attempts the knowledge upsert; if that upsert fails
the route reports failure (500) but the request's transition to
`resolved` is already committed and remains visible, while the knowledge
store is unchanged. -/
theorem patch_commits_resolve_despite_knowledge_failure
    (st : ServerState) (id : String) (body : PatchBody) (now newKId : String)
    (r : HelpRequest) (a : String)
    (hid : id ≠ "")
    (hfind : st.helpRequests.find? (fun x => x.id == id) = some r)
    (haction : body.action ≠ some "timeout")
    (hanswer : body.answer = some a)
    (ha : a ≠ "")
    (hatrim : jsTrim a ≠ "")
    (hshould : body.shouldAddToKnowledgeBase.getD true = true) :
    ∃ hs, patchHelpRequest st id body now newKId true =
        ({ helpRequests := hs, knowledge := st.knowledge }, .serverError)
      ∧ ∃ ret, getHelpRequest hs id = some ret
        ∧ ret.status = .resolved
        ∧ ret.answer = some (jsTrim a) := by
  have hupd : updateHelpRequest st.helpRequests id
      { answer := some a
        supervisorName := body.supervisorName
        supervisorNotes := body.supervisorNotes } now =
      .ok (updateFirst (fun x => x.id == id)
            (resolvedHelpRequest
              { answer := some a
                supervisorName := body.supervisorName
                supervisorNotes := body.supervisorNotes } now (jsTrim a)) st.helpRequests)
        (resolvedHelpRequest
          { answer := some a
            supervisorName := body.supervisorName
            supervisorNotes := body.supervisorNotes } now (jsTrim a) r) := by
    simp [updateHelpRequest, hfind, optTruthy, hatrim]
  have hbeq : (jsTrim a == "") = false := beq_eq_false_iff_ne.mpr hatrim
  refine ⟨updateFirst (fun x => x.id == id)
      (resolvedHelpRequest
        { answer := some a
          supervisorName := body.supervisorName
          supervisorNotes := body.supervisorNotes } now (jsTrim a)) st.helpRequests, ?_, ?_⟩
  · simp only [patchHelpRequest, if_neg hid, getHelpRequest, hfind, if_neg haction, hanswer,
      if_neg ha, hupd, hshould, hbeq]
    simp [resolvedHelpRequest, hbeq]
  · refine ⟨resolvedHelpRequest
      { answer := some a
        supervisorName := body.supervisorName
        supervisorNotes := body.supervisorNotes } now (jsTrim a) r, ?_, rfl, rfl⟩
    have hpr : (fun x : HelpRequest => x.id == id)
        (resolvedHelpRequest
          { answer := some a
            supervisorName := body.supervisorName
            supervisorNotes := body.supervisorNotes } now (jsTrim a) r) = true := by
      simpa [resolvedHelpRequest] using List.find?_some hfind
    exact find?_updateFirst hfind hpr

/-- Witness for `patch_commits_resolve_despite_knowledge_failure` at a
concrete pending record. -/
theorem patch_commits_resolve_despite_knowledge_failure_witness :
    (("h1" : String) ≠ ""
      ∧ [hrSample].find? (fun x => x.id == "h1") = some hrSample
      ∧ ({ answer := some "Yes, from $120" } : PatchBody).action ≠ some "timeout"
      ∧ ({ answer := some "Yes, from $120" } : PatchBody).answer = some "Yes, from $120"
      ∧ ("Yes, from $120" : String) ≠ ""
      ∧ jsTrim "Yes, from $120" ≠ ""
      ∧ ({ answer := some "Yes, from $120" } : PatchBody).shouldAddToKnowledgeBase.getD true = true)
    ∧ (∃ hs, patchHelpRequest { helpRequests := [hrSample], knowledge := [] } "h1"
          { answer := some "Yes, from $120" } "t1" "k1" true =
          ({ helpRequests := hs, knowledge := [] }, .serverError)
        ∧ ∃ ret, getHelpRequest hs "h1" = some ret
          ∧ ret.status = .resolved
          ∧ ret.answer = some (jsTrim "Yes, from $120")) :=
  ⟨⟨by decide, by decide, by decide, by decide, by decide, by decide, by decide⟩,
   patch_commits_resolve_despite_knowledge_failure
     { helpRequests := [hrSample], knowledge := [] } "h1"
     { answer := some "Yes, from $120" } "t1" "k1" hrSample "Yes, from $120"
     (by decide) (by decide) (by decide) (by decide) (by decide) (by decide) (by decide)⟩

/-! ## C4 — tag handling when merging a knowledge entry -/

/-- **C4** (counterexample, the spec's Scenario D): after
`upsert("What is your address?", "123 Main St", tags=["location"])` and
then `upsert("what is your address?", "124 Main St")` with no tags, the
single merged entry has its tags DELETED (`none`), not kept as
`["location"]`. -/
theorem scenario_d_tags_cleared :
    (upsertKnowledgeEntry
        ((upsertKnowledgeEntry []
            { question := "What is your address?", answer := "123 Main St",
              tags := some ["location"] } "k1" "t1").1)
        { question := "what is your address?", answer := "124 Main St" } "k2" "t2").2.tags
      = none
    ∧ (upsertKnowledgeEntry
        ((upsertKnowledgeEntry []
            { question := "What is your address?", answer := "123 Main St",
              tags := some ["location"] } "k1" "t1").1)
        { question := "what is your address?", answer := "124 Main St" } "k2" "t2").2.tags
      ≠ some ["location"]
    ∧ (upsertKnowledgeEntry
        ((upsertKnowledgeEntry []
            { question := "What is your address?", answer := "123 Main St",
              tags := some ["location"] } "k1" "t1").1)
        { question := "what is your address?", answer := "124 Main St" } "k2" "t2").2.answer
      = "124 Main St"
    ∧ (upsertKnowledgeEntry
        ((upsertKnowledgeEntry []
            { question := "What is your address?", answer := "123 Main St",
              tags := some ["location"] } "k1" "t1").1)
        { question := "what is your address?", answer := "124 Main St" } "k2" "t2").1.length
      = 1 := by
  decide

/-- **C4** (amended): when the upsert merges into an existing entry, the
merged entry's tags come from the input alone: a missing or
empty-after-cleaning tag set DELETES the stored tags, and a non-empty
cleaned tag set replaces them; the existing tags are never kept. The
answer is replaced by the trimmed input answer and the store keeps its
size. -/
theorem merge_tags_follow_input_only
    (store : List KnowledgeRecord) (input : UpsertKnowledgeEntryInput)
    (newId now : String) (doc : KnowledgeRecord)
    (hfind : store.find? (fun r => r.questionLower == jsToLower (jsTrim input.question))
      = some doc) :
    ((cleanTags input.tags = none ∨ cleanTags input.tags = some []) →
        ((upsertKnowledgeEntry store input newId now).2).tags = none)
    ∧ (∀ ts, cleanTags input.tags = some ts → ts ≠ [] →
        ((upsertKnowledgeEntry store input newId now).2).tags = some ts)
    ∧ ((upsertKnowledgeEntry store input newId now).2).answer = jsTrim input.answer
    ∧ ((upsertKnowledgeEntry store input newId now).1).length = store.length := by
  simp only [upsertKnowledgeEntry, hfind]
  refine ⟨?_, ?_, rfl, length_updateFirst _ _ _⟩
  · rintro (h | h) <;> simp [mergeKnowledgeRecord, h]
  · intro ts hts hne
    simp [mergeKnowledgeRecord, hts, hne]

/-- Witness for `merge_tags_follow_input_only`, run against the Scenario D
store. -/
theorem merge_tags_follow_input_only_witness :
    (((upsertKnowledgeEntry [] { question := "What is your address?", answer := "123 Main St", tags := some ["location"] } "k1" "t1").1).find? (fun r => r.questionLower == jsToLower (jsTrim ({ question := "what is your address?", answer := "124 Main St" : UpsertKnowledgeEntryInput }).question)) = some (newKnowledgeRecord { question := "What is your address?", answer := "123 Main St", tags := some ["location"] } "k1" "t1"))
    ∧ (((cleanTags ({ question := "what is your address?", answer := "124 Main St" : UpsertKnowledgeEntryInput }).tags = none ∨ cleanTags ({ question := "what is your address?", answer := "124 Main St" : UpsertKnowledgeEntryInput }).tags = some []) → ((upsertKnowledgeEntry ((upsertKnowledgeEntry [] { question := "What is your address?", answer := "123 Main St", tags := some ["location"] } "k1" "t1").1) { question := "what is your address?", answer := "124 Main St" } "k2" "t2").2).tags = none)
      ∧ (∀ ts, cleanTags ({ question := "what is your address?", answer := "124 Main St" : UpsertKnowledgeEntryInput }).tags = some ts → ts ≠ [] → ((upsertKnowledgeEntry ((upsertKnowledgeEntry [] { question := "What is your address?", answer := "123 Main St", tags := some ["location"] } "k1" "t1").1) { question := "what is your address?", answer := "124 Main St" } "k2" "t2").2).tags = some ts)
      ∧ ((upsertKnowledgeEntry ((upsertKnowledgeEntry [] { question := "What is your address?", answer := "123 Main St", tags := some ["location"] } "k1" "t1").1) { question := "what is your address?", answer := "124 Main St" } "k2" "t2").2).answer = jsTrim ({ question := "what is your address?", answer := "124 Main St" : UpsertKnowledgeEntryInput }).answer
      ∧ ((upsertKnowledgeEntry ((upsertKnowledgeEntry [] { question := "What is your address?", answer := "123 Main St", tags := some ["location"] } "k1" "t1").1) { question := "what is your address?", answer := "124 Main St" } "k2" "t2").1).length = ((upsertKnowledgeEntry [] { question := "What is your address?", answer := "123 Main St", tags := some ["location"] } "k1" "t1").1).length) :=
  ⟨by decide,
   merge_tags_follow_input_only
     ((upsertKnowledgeEntry [] { question := "What is your address?", answer := "123 Main St", tags := some ["location"] } "k1" "t1").1)
     { question := "what is your address?", answer := "124 Main St" } "k2" "t2"
     (newKnowledgeRecord { question := "What is your address?", answer := "123 Main St", tags := some ["location"] } "k1" "t1")
     (by decide)⟩

/-! ## C5 — the matching score -/

/-- **C5** (counterexample): for the `hours` entry and the query
`"hours business"`, the code's score — substring containment only — is 0,
while the spec's token formula (doubled, so that it stays integral) gives
6, i.e. a spec score of 3 (+1 exact and +0.5 prefix for each of the two
tokens).  The claimed token/prefix formula is not what the code
computes. -/
theorem score_formula_counterexample :
    2 * knowledgeScore kbHours "hours business" ≠ specScoreDoubled kbHours "hours business"
    ∧ 2 * knowledgeScore kbHours "hours business" = 0
    ∧ specScoreDoubled kbHours "hours business" = 6 := by
  decide

/-- Every entry returned by a search comes from the store and its code
score against the trimmed lower-cased query is strictly positive. -/
theorem mem_searchKnowledgeEntries {store : List KnowledgeRecord} {q : String}
    {limit : Nat} {e : KnowledgeEntry}
    (hq : jsToLower (jsTrim q) ≠ "")
    (he : e ∈ searchKnowledgeEntries store q limit) :
    e ∈ store.map (fun r => r.toKnowledgeEntry)
    ∧ 0 < knowledgeScore e (jsToLower (jsTrim q)) := by
  unfold searchKnowledgeEntries at he
  rw [if_neg hq] at he
  obtain ⟨p, hp, hpe⟩ := List.mem_map.mp he
  have hsort : p ∈ List.insertionSort scoreGE
      (((store.map (fun r => r.toKnowledgeEntry)).map
        (fun x => (x, knowledgeScore x (jsToLower (jsTrim q))))).filter
          (fun p => 0 < p.2)) := List.mem_of_mem_take hp
  have hfl := (List.perm_insertionSort scoreGE _).mem_iff.mp hsort
  have hmem := List.mem_filter.mp hfl
  obtain ⟨x, hx, hxp⟩ := List.mem_map.mp hmem.1
  have hpos : 0 < p.2 := by simpa using hmem.2
  subst hpe
  rw [← hxp]
  rw [← hxp] at hpos
  exact ⟨hx, by simpa using hpos⟩

/-- **C5** (amended): an entry is returned by the search (for a non-empty
trimmed query and a limit at least the store size) exactly when its
score is positive, where the score is `+2` if the lower-cased query is a
substring of the lower-cased question, `+1` if it is a substring of the
lower-cased answer, and `+1` if it is a substring of some lower-cased
tag — plain substring containment, with no tokenization and no
half-point prefix bonus. -/
theorem search_mem_iff_substring_score_pos
    (store : List KnowledgeRecord) (q : String) (limit : Nat) (e : KnowledgeEntry)
    (hq : jsToLower (jsTrim q) ≠ "")
    (hlim : store.length ≤ limit) :
    e ∈ searchKnowledgeEntries store q limit ↔
      (e ∈ store.map (fun r => r.toKnowledgeEntry)
        ∧ 0 < (if jsIncludes (jsToLower e.question) (jsToLower (jsTrim q)) then 2 else 0) +
              (if jsIncludes (jsToLower e.answer) (jsToLower (jsTrim q)) then 1 else 0) +
              (if (match e.tags with
                   | some ts => ts.any (fun tag => jsIncludes (jsToLower tag) (jsToLower (jsTrim q)))
                   | none => false) then 1 else 0)) := by
  show e ∈ searchKnowledgeEntries store q limit ↔
    e ∈ store.map (fun r => r.toKnowledgeEntry)
      ∧ 0 < knowledgeScore e (jsToLower (jsTrim q))
  constructor
  · exact mem_searchKnowledgeEntries hq
  · rintro ⟨he, hpos⟩
    unfold searchKnowledgeEntries
    rw [if_neg hq]
    have hp : (e, knowledgeScore e (jsToLower (jsTrim q))) ∈
        (store.map (fun r => r.toKnowledgeEntry)).map
          (fun x => (x, knowledgeScore x (jsToLower (jsTrim q)))) :=
      List.mem_map.mpr ⟨e, he, rfl⟩
    have hfl : (e, knowledgeScore e (jsToLower (jsTrim q))) ∈
        ((store.map (fun r => r.toKnowledgeEntry)).map
          (fun x => (x, knowledgeScore x (jsToLower (jsTrim q))))).filter
            (fun p => 0 < p.2) :=
      List.mem_filter.mpr ⟨hp, by simpa using hpos⟩
    have hsort := (List.perm_insertionSort scoreGE _).mem_iff.mpr hfl
    have hlen : (List.insertionSort scoreGE
        (((store.map (fun r => r.toKnowledgeEntry)).map
          (fun x => (x, knowledgeScore x (jsToLower (jsTrim q))))).filter
            (fun p => 0 < p.2))).length ≤ limit := by
      have h1 := (List.perm_insertionSort scoreGE
        (((store.map (fun r => r.toKnowledgeEntry)).map
          (fun x => (x, knowledgeScore x (jsToLower (jsTrim q))))).filter
            (fun p => 0 < p.2))).length_eq
      have h2 := List.length_filter_le
        (fun p : KnowledgeEntry × Nat => decide (0 < p.2))
        ((store.map (fun r => r.toKnowledgeEntry)).map
          (fun x => (x, knowledgeScore x (jsToLower (jsTrim q)))))
      simp only [List.length_map] at h1 h2 ⊢
      omega
    rw [List.take_of_length_le hlen]
    exact List.mem_map.mpr ⟨(e, knowledgeScore e (jsToLower (jsTrim q))), hsort, rfl⟩

/-- Witness for `search_mem_iff_substring_score_pos` on the sample store. -/
theorem search_mem_iff_substring_score_pos_witness :
    (jsToLower (jsTrim "hours") ≠ "" ∧ ([kbHoursRecord] : List KnowledgeRecord).length ≤ 5)
    ∧ (kbHours ∈ searchKnowledgeEntries [kbHoursRecord] "hours" 5 ↔
        (kbHours ∈ ([kbHoursRecord] : List KnowledgeRecord).map (fun r => r.toKnowledgeEntry)
          ∧ 0 < (if jsIncludes (jsToLower kbHours.question) (jsToLower (jsTrim "hours")) then 2 else 0) +
                (if jsIncludes (jsToLower kbHours.answer) (jsToLower (jsTrim "hours")) then 1 else 0) +
                (if (match kbHours.tags with
                     | some ts => ts.any (fun tag => jsIncludes (jsToLower tag) (jsToLower (jsTrim "hours")))
                     | none => false) then 1 else 0))) :=
  ⟨⟨by decide, by decide⟩,
   search_mem_iff_substring_score_pos [kbHoursRecord] "hours" 5 kbHours
     (by decide) (by decide)⟩

/-! ## C6 — the dedup key and upsert idempotence -/

/-- **C6** (counterexample): `"a  b"` and `"a b"` have the same
spec-normalized (whitespace-collapsed) form, yet the code keys them by
trim+lower-case only, so the second upsert INSERTS instead of merging:
the store grows from one entry to two. -/
theorem whitespace_collapse_counterexample :
    specNormalizedQuestion "a  b" = specNormalizedQuestion "a b"
    ∧ ((upsertKnowledgeEntry [] { question := "a  b", answer := "x" } "k1" "t1").1).length = 1
    ∧ ((upsertKnowledgeEntry ((upsertKnowledgeEntry [] { question := "a  b", answer := "x" } "k1" "t1").1) { question := "a b", answer := "y" } "k2" "t2").1).length = 2 := by
  decide

/-- After an upsert the store holds exactly one record keyed by the
input's trimmed lower-cased question, provided it held at most one
before. -/
theorem upsert_key_count_one
    (store : List KnowledgeRecord) (input : UpsertKnowledgeEntryInput) (newId now : String)
    (hinv : store.countP (fun r => r.questionLower == jsToLower (jsTrim input.question)) ≤ 1) :
    ((upsertKnowledgeEntry store input newId now).1).countP
      (fun r => r.questionLower == jsToLower (jsTrim input.question)) = 1 := by
  cases hfind : store.find? (fun r => r.questionLower == jsToLower (jsTrim input.question)) with
  | none =>
    have h0 : store.countP (fun r => r.questionLower == jsToLower (jsTrim input.question)) = 0 :=
      List.countP_eq_zero.mpr (List.find?_eq_none.mp hfind)
    simp [upsertKnowledgeEntry, hfind, List.countP_append, h0, List.countP_cons,
      newKnowledgeRecord]
  | some doc =>
    have hmem := List.mem_of_find?_eq_some hfind
    have hp := List.find?_some hfind
    have h1 : 0 < store.countP (fun r => r.questionLower == jsToLower (jsTrim input.question)) := by
      rw [List.countP_pos_iff]
      exact ⟨doc, hmem, hp⟩
    have heq : ((upsertKnowledgeEntry store input newId now).1).countP
        (fun r => r.questionLower == jsToLower (jsTrim input.question)) =
        store.countP (fun r => r.questionLower == jsToLower (jsTrim input.question)) := by
      simp only [upsertKnowledgeEntry, hfind]
      exact countP_updateFirst _ _ _ _ (fun a => rfl)
    omega

/-- **C6** (amended): the dedup key is the TRIMMED, LOWER-CASED question
(no whitespace collapsing).  For two upserts whose questions agree on
that key (starting from a store with at most one record for it), the
store ends with exactly one record for the key, every record for the key
carries the second trimmed answer, and the second call leaves the store
size unchanged — uniqueness is enforced by merge, never by duplicate
insert. -/
theorem upsert_same_trimlower_key_merges
    (store : List KnowledgeRecord) (q1 a1 q2 a2 id1 t1 id2 t2 : String)
    (hkey : jsToLower (jsTrim q1) = jsToLower (jsTrim q2))
    (hinv : store.countP (fun r => r.questionLower == jsToLower (jsTrim q1)) ≤ 1) :
    (((upsertKnowledgeEntry ((upsertKnowledgeEntry store { question := q1, answer := a1 } id1 t1).1) { question := q2, answer := a2 } id2 t2).1).countP (fun r => r.questionLower == jsToLower (jsTrim q1)) = 1)
    ∧ (∀ x ∈ ((upsertKnowledgeEntry ((upsertKnowledgeEntry store { question := q1, answer := a1 } id1 t1).1) { question := q2, answer := a2 } id2 t2).1), (x.questionLower == jsToLower (jsTrim q1)) = true → x.answer = jsTrim a2)
    ∧ ((upsertKnowledgeEntry ((upsertKnowledgeEntry store { question := q1, answer := a1 } id1 t1).1) { question := q2, answer := a2 } id2 t2).1).length = ((upsertKnowledgeEntry store { question := q1, answer := a1 } id1 t1).1).length := by
  rw [hkey] at hinv ⊢
  set S1 := (upsertKnowledgeEntry store { question := q1, answer := a1 } id1 t1).1 with hS1
  have hc1 : S1.countP (fun r => r.questionLower == jsToLower (jsTrim q2)) = 1 := by
    have h := upsert_key_count_one store { question := q1, answer := a1 } id1 t1
      (by simpa [hkey] using hinv)
    rw [hS1]
    simpa [hkey] using h
  have hpos : 0 < S1.countP (fun r => r.questionLower == jsToLower (jsTrim q2)) := by omega
  obtain ⟨doc, hfind2⟩ : ∃ d, S1.find?
      (fun r => r.questionLower == jsToLower (jsTrim q2)) = some d := by
    apply Option.isSome_iff_exists.mp
    rw [List.find?_isSome]
    exact List.countP_pos_iff.mp hpos
  refine ⟨?_, ?_, ?_⟩
  · have heq : ((upsertKnowledgeEntry S1 { question := q2, answer := a2 } id2 t2).1).countP
        (fun r => r.questionLower == jsToLower (jsTrim q2)) =
        S1.countP (fun r => r.questionLower == jsToLower (jsTrim q2)) := by
      simp only [upsertKnowledgeEntry, hfind2]
      exact countP_updateFirst _ _ _ _ (fun a => rfl)
    omega
  · intro x hx hpx
    have hle : S1.countP (fun r => r.questionLower == jsToLower (jsTrim q2)) ≤ 1 := by omega
    simp only [upsertKnowledgeEntry, hfind2] at hx
    obtain ⟨r, _, _, hxr⟩ := mem_updateFirst_of_countP_le_one hle x hx hpx
    rw [hxr]
    rfl
  · simp only [upsertKnowledgeEntry, hfind2]
    exact length_updateFirst _ _ _

/-- Witness for `upsert_same_trimlower_key_merges` on two spellings of the
same trimmed lower-cased question. -/
theorem upsert_same_trimlower_key_merges_witness :
    (jsToLower (jsTrim "What time?") = jsToLower (jsTrim " what TIME? ")
      ∧ ([] : List KnowledgeRecord).countP (fun r => r.questionLower == jsToLower (jsTrim "What time?")) ≤ 1)
    ∧ ((((upsertKnowledgeEntry ((upsertKnowledgeEntry [] { question := "What time?", answer := "Nine" } "k1" "t1").1) { question := " what TIME? ", answer := "Ten" } "k2" "t2").1).countP (fun r => r.questionLower == jsToLower (jsTrim "What time?")) = 1)
      ∧ (∀ x ∈ ((upsertKnowledgeEntry ((upsertKnowledgeEntry [] { question := "What time?", answer := "Nine" } "k1" "t1").1) { question := " what TIME? ", answer := "Ten" } "k2" "t2").1), (x.questionLower == jsToLower (jsTrim "What time?")) = true → x.answer = jsTrim "Ten")
      ∧ ((upsertKnowledgeEntry ((upsertKnowledgeEntry [] { question := "What time?", answer := "Nine" } "k1" "t1").1) { question := " what TIME? ", answer := "Ten" } "k2" "t2").1).length = ((upsertKnowledgeEntry [] { question := "What time?", answer := "Nine" } "k1" "t1").1).length) :=
  ⟨⟨by decide, by decide⟩,
   upsert_same_trimlower_key_merges [] "What time?" "Nine" " what TIME? " "Ten"
     "k1" "t1" "k2" "t2" (by decide) (by decide)⟩

/-! ## C7 — search bounds, filtering and ordering -/

/-- The second component of any pair reaching the sorted/truncated stage
of the search pipeline is the score of the first component. -/
theorem snd_eq_score_of_mem_search_pipeline
    {store : List KnowledgeRecord} {t : String} {limit : Nat}
    {p : KnowledgeEntry × Nat}
    (hp : p ∈ (((((store.map (fun r => r.toKnowledgeEntry)).map
        (fun x => (x, knowledgeScore x t))).filter
          (fun p => 0 < p.2)).insertionSort scoreGE).take limit)) :
    p.2 = knowledgeScore p.1 t := by
  have hsort := List.mem_of_mem_take hp
  have hfl := (List.perm_insertionSort scoreGE _).mem_iff.mp hsort
  have hmem := (List.mem_filter.mp hfl).1
  obtain ⟨x, _, hxp⟩ := List.mem_map.mp hmem
  rw [← hxp]

/-- **C7** (confirmed): the search returns at most `limit` entries (and
the `limit` argument defaults to 5), every returned entry has a strictly
positive score, the results are ordered by descending score, and an
empty-after-trim query yields the empty result rather than all
entries. -/
theorem search_returns_limited_positive_sorted
    (store : List KnowledgeRecord) (q : String) (limit : Nat) :
    (searchKnowledgeEntries store q limit).length ≤ limit
    ∧ (∀ e ∈ searchKnowledgeEntries store q limit,
        0 < knowledgeScore e (jsToLower (jsTrim q)))
    ∧ (searchKnowledgeEntries store q limit).Pairwise
        (fun a b => knowledgeScore b (jsToLower (jsTrim q)) ≤
          knowledgeScore a (jsToLower (jsTrim q)))
    ∧ (jsTrim q = "" → searchKnowledgeEntries store q limit = [])
    ∧ searchKnowledgeEntries store q = searchKnowledgeEntries store q 5 := by
  by_cases hq : jsToLower (jsTrim q) = ""
  · have hnil : ∀ lim, searchKnowledgeEntries store q lim = [] := by
      intro lim
      unfold searchKnowledgeEntries
      rw [if_pos hq]
    simp [hnil]
  · refine ⟨?_, ?_, ?_, ?_, rfl⟩
    · unfold searchKnowledgeEntries
      rw [if_neg hq]
      simp only [List.length_map]
      exact List.length_take_le _ _
    · intro e he
      exact (mem_searchKnowledgeEntries hq he).2
    · unfold searchKnowledgeEntries
      rw [if_neg hq]
      rw [List.pairwise_map]
      have hsorted : List.Sorted scoreGE
          (List.insertionSort scoreGE
            (((store.map (fun r => r.toKnowledgeEntry)).map
              (fun x => (x, knowledgeScore x (jsToLower (jsTrim q))))).filter
                (fun p => 0 < p.2))) :=
        List.sorted_insertionSort scoreGE _
      have htake := List.Pairwise.sublist (List.take_sublist limit _) hsorted
      refine htake.imp_of_mem ?_
      intro a b ha hb hr
      have ha2 := snd_eq_score_of_mem_search_pipeline ha
      have hb2 := snd_eq_score_of_mem_search_pipeline hb
      have : b.2 ≤ a.2 := hr
      rw [ha2, hb2] at this
      exact this
    · intro hq0
      have : jsToLower (jsTrim q) = "" := by rw [hq0]; decide
      exact absurd this hq

/-- Witness for `search_returns_limited_positive_sorted` at the sample
store. -/
theorem search_returns_limited_positive_sorted_witness :
    (searchKnowledgeEntries [kbHoursRecord] "hours" 3).length ≤ 3
    ∧ (∀ e ∈ searchKnowledgeEntries [kbHoursRecord] "hours" 3,
        0 < knowledgeScore e (jsToLower (jsTrim "hours")))
    ∧ (searchKnowledgeEntries [kbHoursRecord] "hours" 3).Pairwise
        (fun a b => knowledgeScore b (jsToLower (jsTrim "hours")) ≤
          knowledgeScore a (jsToLower (jsTrim "hours")))
    ∧ (jsTrim "hours" = "" → searchKnowledgeEntries [kbHoursRecord] "hours" 3 = [])
    ∧ searchKnowledgeEntries [kbHoursRecord] "hours" = searchKnowledgeEntries [kbHoursRecord] "hours" 5 :=
  search_returns_limited_positive_sorted [kbHoursRecord] "hours" 3

/-! ## C8 — create-branch defaults of the knowledge upsert -/

/-- **C8** (counterexample): a fresh upsert with no `source` stores
`source = "supervisor"`, not `"human"`; the learning path invoked by the
resolve route also writes `"supervisor"`. -/
theorem source_default_counterexample :
    ((upsertKnowledgeEntry [] { question := "Do you sell gift cards?", answer := "Yes" } "k1" "t1").2).source = "supervisor"
    ∧ ((upsertKnowledgeEntry [] { question := "Do you sell gift cards?", answer := "Yes" } "k1" "t1").2).source ≠ "human"
    ∧ ((addAnswerToKnowledgeBase [] "Do you sell gift cards?" "Yes" none "k1" "t1").2).source = "supervisor" := by
  decide

/-- The learning path always stores `source = "supervisor"`, in both the
create and the merge branch of the upsert. -/
theorem addAnswer_source_supervisor (store : List KnowledgeRecord) (q a : String)
    (tg : Option (List String)) (newId now : String) :
    ((addAnswerToKnowledgeBase store q a tg newId now).2).source = "supervisor" := by
  simp only [addAnswerToKnowledgeBase, upsertKnowledgeEntry]
  split
  · simp [mergeKnowledgeRecord]
  · simp [newKnowledgeRecord]

/-- **C8** (amended): when no entry matches the dedup key, the upsert
appends one new entry whose id is the freshly generated document id,
whose `createdAt` and `updatedAt` both equal `now`, and whose `source`
is the supplied one, defaulting to `"supervisor"` — not `"human"` — when
absent; the resolve route's learning path therefore writes entries with
`source = "supervisor"`. -/
theorem upsert_create_defaults
    (store : List KnowledgeRecord) (input : UpsertKnowledgeEntryInput) (newId now : String)
    (hfind : store.find? (fun r => r.questionLower == jsToLower (jsTrim input.question)) = none) :
    ((upsertKnowledgeEntry store input newId now).2).id = newId
    ∧ ((upsertKnowledgeEntry store input newId now).2).createdAt = now
    ∧ ((upsertKnowledgeEntry store input newId now).2).updatedAt = now
    ∧ ((upsertKnowledgeEntry store input newId now).2).question = jsTrim input.question
    ∧ ((upsertKnowledgeEntry store input newId now).2).source = input.source.getD "supervisor"
    ∧ ((upsertKnowledgeEntry store input newId now).1).length = store.length + 1
    ∧ (∀ (q a : String) (tg : Option (List String)) (id2 t2 : String),
        ((addAnswerToKnowledgeBase store q a tg id2 t2).2).source = "supervisor") := by
  simp only [upsertKnowledgeEntry, hfind]
  exact ⟨rfl, rfl, rfl, rfl, rfl, by simp,
    fun q a tg id2 t2 => addAnswer_source_supervisor store q a tg id2 t2⟩

/-- Witness for `upsert_create_defaults` on the empty store. -/
theorem upsert_create_defaults_witness :
    (([] : List KnowledgeRecord).find? (fun r => r.questionLower == jsToLower (jsTrim ({ question := "Do you offer refunds?", answer := "Within 30 days" : UpsertKnowledgeEntryInput }).question)) = none)
    ∧ (((upsertKnowledgeEntry [] { question := "Do you offer refunds?", answer := "Within 30 days" } "k7" "t7").2).id = "k7"
      ∧ ((upsertKnowledgeEntry [] { question := "Do you offer refunds?", answer := "Within 30 days" } "k7" "t7").2).createdAt = "t7"
      ∧ ((upsertKnowledgeEntry [] { question := "Do you offer refunds?", answer := "Within 30 days" } "k7" "t7").2).updatedAt = "t7"
      ∧ ((upsertKnowledgeEntry [] { question := "Do you offer refunds?", answer := "Within 30 days" } "k7" "t7").2).question = jsTrim ({ question := "Do you offer refunds?", answer := "Within 30 days" : UpsertKnowledgeEntryInput }).question
      ∧ ((upsertKnowledgeEntry [] { question := "Do you offer refunds?", answer := "Within 30 days" } "k7" "t7").2).source = ({ question := "Do you offer refunds?", answer := "Within 30 days" : UpsertKnowledgeEntryInput }).source.getD "supervisor"
      ∧ ((upsertKnowledgeEntry [] { question := "Do you offer refunds?", answer := "Within 30 days" } "k7" "t7").1).length = ([] : List KnowledgeRecord).length + 1
      ∧ (∀ (q a : String) (tg : Option (List String)) (id2 t2 : String),
          ((addAnswerToKnowledgeBase [] q a tg id2 t2).2).source = "supervisor")) :=
  ⟨by decide,
   upsert_create_defaults [] { question := "Do you offer refunds?", answer := "Within 30 days" }
     "k7" "t7" (by decide)⟩

/-! ## C9 — create-time validation and the pending shape -/

/-- **C9** (counterexample): a whitespace-only question is NOT rejected:
the POST handler only tests JS truthiness of the raw string, so `" "`
passes validation and a pending request whose trimmed question is empty
is stored. -/
theorem whitespace_question_accepted :
    postHelpRequest [] (some { question := " " }) "h9" "t0" =
      ([{ id := "h9", question := "", status := .pending, createdAt := "t0", updatedAt := "t0" }],
        .created { id := "h9", question := "", status := .pending, createdAt := "t0", updatedAt := "t0" }) := by
  decide

/-- **C9** (amended): the POST handler rejects only a literally empty
`question` string (JS falsiness); any other question — whitespace-only
included — is accepted, and the stored record retrieved by
`getHelpRequest` is `pending` with `resolvedAt` and `timedOutAt` absent
and the question trimmed. -/
theorem post_creates_pending
    (store : List HelpRequest) (p : CreateHelpRequestInput) (newId now : String)
    (hq : p.question ≠ "")
    (hfresh : store.find? (fun r => r.id == newId) = none) :
    postHelpRequest store (some p) newId now =
      (store ++ [createHelpRequest p newId now], .created (createHelpRequest p newId now))
    ∧ getHelpRequest (store ++ [createHelpRequest p newId now]) newId
        = some (createHelpRequest p newId now)
    ∧ (createHelpRequest p newId now).status = .pending
    ∧ (createHelpRequest p newId now).resolvedAt = none
    ∧ (createHelpRequest p newId now).timedOutAt = none
    ∧ (createHelpRequest p newId now).question = jsTrim p.question := by
  refine ⟨?_, ?_, rfl, rfl, rfl, rfl⟩
  · simp [postHelpRequest, hq]
  · unfold getHelpRequest
    rw [find?_append_of_none hfresh]
    exact List.find?_cons_of_pos _ (beq_self_eq_true newId)

/-- Witness for `post_creates_pending` on the empty store. -/
theorem post_creates_pending_witness :
    (({ question := "Do you do keratin?" : CreateHelpRequestInput }).question ≠ ""
      ∧ ([] : List HelpRequest).find? (fun r => r.id == "h9") = none)
    ∧ (postHelpRequest [] (some { question := "Do you do keratin?" }) "h9" "t0" =
        ([] ++ [createHelpRequest { question := "Do you do keratin?" } "h9" "t0"],
          .created (createHelpRequest { question := "Do you do keratin?" } "h9" "t0"))
      ∧ getHelpRequest ([] ++ [createHelpRequest { question := "Do you do keratin?" } "h9" "t0"]) "h9"
          = some (createHelpRequest { question := "Do you do keratin?" } "h9" "t0")
      ∧ (createHelpRequest { question := "Do you do keratin?" } "h9" "t0").status = .pending
      ∧ (createHelpRequest { question := "Do you do keratin?" } "h9" "t0").resolvedAt = none
      ∧ (createHelpRequest { question := "Do you do keratin?" } "h9" "t0").timedOutAt = none
      ∧ (createHelpRequest { question := "Do you do keratin?" } "h9" "t0").question =
          jsTrim ({ question := "Do you do keratin?" : CreateHelpRequestInput }).question) :=
  ⟨⟨by decide, by decide⟩,
   post_creates_pending [] { question := "Do you do keratin?" } "h9" "t0"
     (by decide) (by decide)⟩

/-! ## C10 — supervisor fields are rewritten from the input alone -/

/-- **C10** (confirmed): on resolve, the supervisor fields of the written
and returned record come from the current input only: an absent or
empty-after-trim `supervisorName`/`supervisorNotes` deletes any
previously stored value, and a non-empty one replaces it; a prior value
never survives a call that does not re-supply it. -/
theorem resolve_supervisor_fields_follow_input
    (store : List HelpRequest) (id now : String) (input : ResolveHelpRequestInput)
    (r : HelpRequest) (a : String)
    (hfind : store.find? (fun x => x.id == id) = some r)
    (haction : input.action ≠ some "timeout")
    (hanswer : optTruthy input.answer = some a) :
    ∃ st ret, updateHelpRequest store id input now = .ok st ret
      ∧ ret.supervisorName = optTruthy input.supervisorName
      ∧ ret.supervisorNotes = optTruthy input.supervisorNotes
      ∧ getHelpRequest st id = some ret := by
  refine ⟨updateFirst (fun x => x.id == id) (resolvedHelpRequest input now a) store,
    resolvedHelpRequest input now a r, ?_, rfl, rfl, ?_⟩
  · simp only [updateHelpRequest, hfind, if_neg haction, hanswer]
  · have hpr : (fun x : HelpRequest => x.id == id) (resolvedHelpRequest input now a r) = true := by
      simpa [resolvedHelpRequest] using List.find?_some hfind
    exact find?_updateFirst hfind hpr

/-- Witness for `resolve_supervisor_fields_follow_input`: the stored
record carries `supervisorName = some "Alice"`, the resolving input
supplies no name, and the resolved record has the field deleted. -/
theorem resolve_supervisor_fields_follow_input_witness :
    ([hrSample].find? (fun x => x.id == "h1") = some hrSample
      ∧ resolveInputA.action ≠ some "timeout"
      ∧ optTruthy resolveInputA.answer = some "Yes, from $120"
      ∧ hrSample.supervisorName = some "Alice"
      ∧ optTruthy resolveInputA.supervisorName = none)
    ∧ (∃ st ret, updateHelpRequest [hrSample] "h1" resolveInputA "t1" = .ok st ret
        ∧ ret.supervisorName = optTruthy resolveInputA.supervisorName
        ∧ ret.supervisorNotes = optTruthy resolveInputA.supervisorNotes
        ∧ getHelpRequest st "h1" = some ret) :=
  ⟨⟨by decide, by decide, by decide, by decide, by decide⟩,
   resolve_supervisor_fields_follow_input [hrSample] "h1" "t1" resolveInputA hrSample
     "Yes, from $120" (by decide) (by decide) (by decide)⟩

end FrontDesk
